import Mathlib

/-!
Verification of the AST-walking documentation generator in `src/app.py`.

The program parses one Python source file and walks the resulting abstract
syntax tree with an `ast.NodeVisitor` subclass (`CodeDocGenerator`), appending
one formatted Markdown line per recognised node kind to a list `self.docs`,
while a mutable counter `self.indent_level` tracks nesting.

We embed the fragment of the Python AST that the visitor inspects, the visitor
itself (with its mutable state made explicit as a `VState` record threaded
through the traversal), the relevant pieces of the standard library it calls
(`ast.get_docstring`, hence `inspect.cleandoc` and `str.expandtabs`, and
`str.join`), and the `analyze_code` orchestrator with I/O effects reified as
`Option`/`Except` values.
-/

/-- An import alias (`ast.alias`); the program only reads its `name` field. -/
structure PyAlias where
  name : String
deriving DecidableEq, Repr

/-- The expression fragment of the Python AST that the traversal can reach and
inspect: names, attribute accesses, calls, string/integer constants, binary
operations and tuples.  Every other expression kind behaves like one of these
under `generic_visit` (children visited, nothing emitted). -/
inductive PyExpr where
  | name (id : String)
  | attribute (value : PyExpr) (attr : String)
  | call (func : PyExpr) (args : List PyExpr)
  | constantStr (s : String)
  | constantInt (n : Int)
  | binOp (left : PyExpr) (op : String) (right : PyExpr)
  | tuple (elts : List PyExpr)

/-- The statement fragment of the Python AST relevant to the visitor:
the kinds with a dedicated `visit_*` method (`Import`, `ImportFrom`,
`ClassDef`, `FunctionDef`, `Assign`, `For`, `Return`), plus `While` and
expression statements, which have no handler and fall through to
`generic_visit`. -/
inductive PyStmt where
  | importS (names : List PyAlias)
  | importFrom (module : Option String) (names : List PyAlias)
  | classDef (name : String) (lineno : Nat) (body : List PyStmt)
  | functionDef (name : String) (lineno : Nat) (args : List String) (body : List PyStmt)
  | assign (targets : List PyExpr) (value : PyExpr)
  | forS (target : PyExpr) (iter : PyExpr) (body : List PyStmt) (orelse : List PyStmt)
  | whileS (test : PyExpr) (body : List PyStmt) (orelse : List PyStmt)
  | ret (value : Option PyExpr)
  | exprStmt (value : PyExpr)

/-- An `ast.Module`: a list of top-level statements. -/
structure PyModule where
  body : List PyStmt

/-- Python `sep.join(strings)`. -/
def pyJoin (sep : String) : List String → String
  | [] => ""
  | [x] => x
  | x :: rest => x ++ sep ++ pyJoin sep rest

/-- Python `s * n` for strings (here only used as `"  " * indent_level`). -/
def pyStrMul (s : String) : Nat → String
  | 0 => ""
  | n + 1 => s ++ pyStrMul s n

/-- Python `x or dflt` for an optional string: both `None` and the empty
string are falsy, so either yields `dflt`.  This models the expressions
`ast.get_docstring(node) or "No ... docstring found."` in the source. -/
def pyOr (x : Option String) (dflt : String) : String :=
  match x with
  | none => dflt
  | some s => if s = "" then dflt else s

/-- `str.expandtabs()` (tab size 8): a tab advances to the next multiple of 8
columns; newline and carriage return reset the column. -/
def expandtabsAux : List Char → Nat → List Char
  | [], _ => []
  | c :: rest, col =>
    if c = '\t' then
      let n := 8 - col % 8
      List.replicate n ' ' ++ expandtabsAux rest (col + n)
    else if c = '\n' ∨ c = '\r' then
      c :: expandtabsAux rest 0
    else
      c :: expandtabsAux rest (col + 1)

/-- `str.expandtabs()` on a string. -/
def expandtabs (s : String) : String := ⟨expandtabsAux s.data 0⟩

/-- `str.lstrip()` with no argument: drop leading whitespace. -/
def lstrip (s : String) : String := ⟨s.data.dropWhile Char.isWhitespace⟩

/-- Python `text.split(sep)` for a single-character separator, on char lists:
always returns at least one (possibly empty) piece. -/
def pySplitChar (sep : Char) : List Char → List (List Char)
  | [] => [[]]
  | c :: rest =>
    let r := pySplitChar sep rest
    if c = sep then
      [] :: r
    else
      match r with
      | [] => [[c]]
      | h :: t => (c :: h) :: t

/-- `inspect.cleandoc(doc)`: expand tabs, split into lines, strip leading
whitespace from the first line, remove the minimal common indentation margin
from the remaining lines (margin `none` models `sys.maxsize`, i.e. no
non-blank later line), drop trailing then leading blank lines, and re-join
with newlines. -/
def cleandoc (doc : String) : String :=
  let lines : List String := (pySplitChar '\n' (expandtabs doc).data).map (fun cs => ⟨cs⟩)
  let margin : Option Nat := (lines.drop 1).foldl
    (fun m line =>
      let content := (lstrip line).length
      if content ≠ 0 then
        let ind := line.length - content
        some (match m with | none => ind | some v => min v ind)
      else m) none
  let lines : List String :=
    match lines with
    | [] => []
    | first :: rest =>
      lstrip first ::
        (match margin with
         | some mval => rest.map (fun l => ⟨l.data.drop mval⟩)
         | none => rest)
  let lines := (lines.reverse.dropWhile (fun l => l = "")).reverse
  let lines := lines.dropWhile (fun l => l = "")
  pyJoin "\n" lines

/-- `ast.get_docstring(node)` (with the default `clean=True`): if the first
statement of the body is an expression statement whose value is a string
constant, return `inspect.cleandoc` of that string, else `None`. -/
def get_docstring (body : List PyStmt) : Option String :=
  match body with
  | (PyStmt.exprStmt (PyExpr.constantStr s)) :: _ => some (cleandoc s)
  | _ => none

mutual

/-- `ast.unparse` restricted to the embedded expression fragment.  String
constants are rendered in single quotes (escaping inside the literal is not
modelled; no claim depends on it).  `hasattr(ast, "unparse")` is true on every
supported interpreter (Python ≥ 3.9), so the `"?"` fallback branches of the
source are the dead `else` arms of its conditional expressions. -/
def unparse : PyExpr → String
  | .name id => id
  | .attribute v a => unparse v ++ "." ++ a
  | .call f args => unparse f ++ "(" ++ unparseJoin args ++ ")"
  | .constantStr s => "\x27" ++ s ++ "\x27"
  | .constantInt n => toString n
  | .binOp l op r => unparse l ++ " " ++ op ++ " " ++ unparse r
  | .tuple es => unparseJoin es

/-- `", ".join(ast.unparse(e) for e in es)`. -/
def unparseJoin : List PyExpr → String
  | [] => ""
  | [e] => unparse e
  | e :: rest => unparse e ++ ", " ++ unparseJoin rest

end

/-- The `func_name` computation of `visit_Call`: an attribute callee renders
as `<unparsed object>.<attr>`, a plain name as itself, anything else as the
empty string. -/
def calleeName : PyExpr → String
  | .attribute v a => unparse v ++ "." ++ a
  | .name id => id
  | _ => ""

/-- The visitor's mutable state: `self.docs` and `self.indent_level`. -/
structure VState where
  docs : List String
  indent_level : Nat
deriving DecidableEq, Repr

namespace CodeDocGenerator

/-- `CodeDocGenerator.__init__`: empty docs, indent level 0. -/
def init : VState := { docs := [], indent_level := 0 }

/-- `CodeDocGenerator.indent`: `"  " * self.indent_level`. -/
def indent (st : VState) : String := pyStrMul "  " st.indent_level

/-- `visit_Import`: one line, no indent prefix, no `generic_visit`. -/
def visit_Import (names : List PyAlias) (st : VState) : VState :=
  let joined := pyJoin ", " (names.map PyAlias.name)
  { st with docs := st.docs ++ ["- 📦 Import: `" ++ (joined ++ "`")] }

/-- `visit_ImportFrom`: one line, no indent prefix, no `generic_visit`;
`node.module or ""` turns an absent module into the empty string. -/
def visit_ImportFrom (module : Option String) (names : List PyAlias) (st : VState) : VState :=
  let m := pyOr module ""
  let joined := pyJoin ", " (names.map PyAlias.name)
  { st with docs := st.docs ++ ["- 📦 From `" ++ (m ++ ("` import `" ++ (joined ++ "`")))] }

/-- `visit_Assign`: one line; the target and value expressions are unparsed
into the line text but their children are never visited. -/
def visit_Assign (targets : List PyExpr) (value : PyExpr) (st : VState) : VState :=
  let pfx := indent st
  let tgts := pyJoin ", " (targets.map unparse)
  { st with docs :=
      st.docs ++ [pfx ++ ("- 📝 Assignment: `" ++ (tgts ++ (" = " ++ (unparse value ++ "`"))))] }

/-- `visit_Return`: one line; a bare `return` renders as `?`. -/
def visit_Return (value : Option PyExpr) (st : VState) : VState :=
  let pfx := indent st
  let v := match value with | some e => unparse e | none => "?"
  { st with docs := st.docs ++ [pfx ++ ("- 🔙 Return statement: `" ++ (v ++ "`"))] }

mutual

/-- `NodeVisitor.visit` on an expression: only `Call` has a handler
(`visit_Call`, inlined here in the `.call` branch: one call line, then
`generic_visit` descends into the callee and the arguments, so nested calls
emit their own lines).  The remaining kinds fall through to `generic_visit`,
which visits child expressions in field order and emits nothing. -/
def visitExpr : PyExpr → VState → VState
  | .call f args, st =>
    let pfx := indent st
    let func_name := calleeName f
    let st1 := { st with docs := st.docs ++
      [pfx ++ ("- 📞 Function call: `" ++ (func_name ++ "`"))] }
    visitExprList args (visitExpr f st1)
  | .attribute v _, st => visitExpr v st
  | .binOp l _ r, st => visitExpr r (visitExpr l st)
  | .tuple es, st => visitExprList es st
  | .name _, st => st
  | .constantStr _, st => st
  | .constantInt _, st => st

/-- Visiting a list of child expressions in order (the iteration inside
`generic_visit`). -/
def visitExprList : List PyExpr → VState → VState
  | [], st => st
  | e :: rest, st => visitExprList rest (visitExpr e st)

end

/-- `visit_Call` as a method: dispatching `visit` on a `Call` node runs the
`.call` branch of `visitExpr`. -/
def visit_Call (f : PyExpr) (args : List PyExpr) (st : VState) : VState :=
  visitExpr (PyExpr.call f args) st

mutual

/-- `NodeVisitor.visit` on a statement: dispatch to the `visit_<Kind>` method
when one exists, otherwise `generic_visit` (visit all child nodes in field
order, emitting nothing for the node itself).  The three handlers that
recurse into a body (`visit_ClassDef`, `visit_FunctionDef`, `visit_For`) are
inlined in their branches; each emits its lines at the current indent, bumps
`indent_level`, visits the body statements, and restores `indent_level`.
`While` and expression statements have no handler, so their children — for a
`While`: test, body, orelse — are visited with no emitted line and no indent
change. -/
def visit : PyStmt → VState → VState
  | .importS names, st => visit_Import names st
  | .importFrom m names, st => visit_ImportFrom m names st
  | .classDef name lineno body, st =>
    let pfx := indent st
    let docstring := pyOr (get_docstring body) "No class docstring found."
    let st1 := { st with docs := st.docs ++
      [pfx ++ ("## 🧱 Class: `" ++ (name ++ ("` (Line " ++ (toString lineno ++ ")")))),
       pfx ++ ("- 📄 Docstring: " ++ docstring)] }
    let st2 := { st1 with indent_level := st1.indent_level + 1 }
    let st3 := visit_body_elements body st2
    { st3 with indent_level := st3.indent_level - 1 }
  | .functionDef name lineno args body, st =>
    let pfx := indent st
    let docstring := pyOr (get_docstring body) "No function docstring found."
    let argText := if args = [] then "None" else pyJoin ", " args
    let st1 := { st with docs := st.docs ++
      [pfx ++ ("### 🔧 Function: `" ++ (name ++ ("` (Line " ++ (toString lineno ++ ")")))),
       pfx ++ ("- 🧩 Arguments: " ++ argText),
       pfx ++ ("- 📄 Docstring: " ++ docstring)] }
    let st2 := { st1 with indent_level := st1.indent_level + 1 }
    let st3 := visit_body_elements body st2
    { st3 with indent_level := st3.indent_level - 1 }
  | .assign t v, st => visit_Assign t v st
  | .forS target iter body _orelse, st =>
    let pfx := indent st
    let st1 := { st with docs := st.docs ++
      [pfx ++ ("- 🔁 For loop: `for " ++ (unparse target ++ (" in " ++ (unparse iter ++ "`"))))] }
    let st2 := { st1 with indent_level := st1.indent_level + 1 }
    let st3 := visit_body_elements body st2
    { st3 with indent_level := st3.indent_level - 1 }
  | .whileS t b o, st => visit_body_elements o (visit_body_elements b (visitExpr t st))
  | .ret v, st => visit_Return v st
  | .exprStmt v, st => visitExpr v st

/-- `visit_body_elements`: visit each statement of a body in order. -/
def visit_body_elements : List PyStmt → VState → VState
  | [], st => st
  | e :: rest, st => visit_body_elements rest (visit e st)

end

/-- `visit_ClassDef` as a method: dispatching `visit` on a `ClassDef` node. -/
def visit_ClassDef (name : String) (lineno : Nat) (body : List PyStmt) (st : VState) : VState :=
  visit (PyStmt.classDef name lineno body) st

/-- `visit_FunctionDef` as a method: dispatching `visit` on a `FunctionDef`
node. -/
def visit_FunctionDef (name : String) (lineno : Nat) (args : List String)
    (body : List PyStmt) (st : VState) : VState :=
  visit (PyStmt.functionDef name lineno args body) st

/-- `visit_For` as a method: dispatching `visit` on a `For` node. -/
def visit_For (target : PyExpr) (iter : PyExpr) (body : List PyStmt)
    (orelse : List PyStmt) (st : VState) : VState :=
  visit (PyStmt.forS target iter body orelse) st

/-- `visit_Module`: the fixed title line, then `generic_visit` over the
module body. -/
def visit_Module (m : PyModule) (st : VState) : VState :=
  let st1 := { st with docs := st.docs ++ ["# 📘 Code Analysis and Auto Documentation\n"] }
  visit_body_elements m.body st1

/-- One full analysis: a fresh visitor (`CodeDocGenerator()`) applied to a
parsed module. -/
def run (m : PyModule) : VState := visit_Module m init

end CodeDocGenerator

/-- `analyze_code(file)`.  The effects are reified: `file` is `none` when no
file was uploaded; otherwise it carries the outcome of
`file.read().decode("utf-8")` / `open(file).read()` as an `Except` (an
exception message or the decoded source text).  `parse` stands for
`ast.parse`, returning either a module or the exception's `str(e)`.  The
`try`/`except` block catches every failure and yields the error pair. -/
def analyze_code (parse : String → Except String PyModule)
    (file : Option (Except String String)) : String × String :=
  match file with
  | none =>
    ("### ⚠️ No file uploaded! **Please upload a `.py` file to generate documentation.** ⚠️", "")
  | some readResult =>
    match readResult with
    | .error e => ("❌ Error: " ++ e, "")
    | .ok source_code =>
      match parse source_code with
      | .error e => ("❌ Error: " ++ e, "")
      | .ok tree =>
        (pyJoin "\n" (CodeDocGenerator.run tree).docs, source_code)

namespace CodeDocGenerator

mutual

/-- The list of lines that visiting an expression at indent level `i` appends
to `docs`, read off from `visitExpr`; the bridge to the stateful visitor is
`visitExpr_frame` below. -/
def exprLines : PyExpr → Nat → List String
  | .call f args, i =>
    (pyStrMul "  " i ++ ("- 📞 Function call: `" ++ (calleeName f ++ "`"))) ::
      (exprLines f i ++ exprListLines args i)
  | .attribute v _, i => exprLines v i
  | .binOp l _ r, i => exprLines l i ++ exprLines r i
  | .tuple es, i => exprListLines es i
  | .name _, _ => []
  | .constantStr _, _ => []
  | .constantInt _, _ => []

/-- Lines appended by visiting a list of child expressions in order. -/
def exprListLines : List PyExpr → Nat → List String
  | [], _ => []
  | e :: rest, i => exprLines e i ++ exprListLines rest i

end

mutual

/-- The list of lines that visiting a statement at indent level `i` appends
to `docs`, read off from `visit`; the bridge is `visit_frame` below. -/
def stmtLines : PyStmt → Nat → List String
  | .importS names, _ =>
    ["- 📦 Import: `" ++ (pyJoin ", " (names.map PyAlias.name) ++ "`")]
  | .importFrom m names, _ =>
    ["- 📦 From `" ++ (pyOr m "" ++ ("` import `" ++ (pyJoin ", " (names.map PyAlias.name) ++ "`")))]
  | .classDef name lineno body, i =>
    (pyStrMul "  " i ++ ("## 🧱 Class: `" ++ (name ++ ("` (Line " ++ (toString lineno ++ ")"))))) ::
    (pyStrMul "  " i ++ ("- 📄 Docstring: " ++ pyOr (get_docstring body) "No class docstring found.")) ::
    bodyLines body (i + 1)
  | .functionDef name lineno args body, i =>
    (pyStrMul "  " i ++ ("### 🔧 Function: `" ++ (name ++ ("` (Line " ++ (toString lineno ++ ")"))))) ::
    (pyStrMul "  " i ++ ("- 🧩 Arguments: " ++ (if args = [] then "None" else pyJoin ", " args))) ::
    (pyStrMul "  " i ++ ("- 📄 Docstring: " ++ pyOr (get_docstring body) "No function docstring found.")) ::
    bodyLines body (i + 1)
  | .assign t v, i =>
    [pyStrMul "  " i ++ ("- 📝 Assignment: `" ++ (pyJoin ", " (t.map unparse) ++ (" = " ++ (unparse v ++ "`"))))]
  | .forS target iter body _orelse, i =>
    (pyStrMul "  " i ++ ("- 🔁 For loop: `for " ++ (unparse target ++ (" in " ++ (unparse iter ++ "`"))))) ::
    bodyLines body (i + 1)
  | .whileS t b o, i => exprLines t i ++ (bodyLines b i ++ bodyLines o i)
  | .ret v, i =>
    [pyStrMul "  " i ++ ("- 🔙 Return statement: `" ++ ((match v with | some e => unparse e | none => "?") ++ "`"))]
  | .exprStmt v, i => exprLines v i

/-- Lines appended by visiting a list of statements in order. -/
def bodyLines : List PyStmt → Nat → List String
  | [], _ => []
  | s :: rest, i => stmtLines s i ++ bodyLines rest i

end

/-- The full report line list for a module. -/
def moduleLines (m : PyModule) : List String :=
  "# 📘 Code Analysis and Auto Documentation\n" :: bodyLines m.body 0

mutual

/-- Frame property of the expression visitor: it appends exactly
`exprLines e` (at the current indent level) to `docs` and restores the
indent level. -/
theorem visitExpr_frame : ∀ (e : PyExpr) (st : VState),
    visitExpr e st = ⟨st.docs ++ exprLines e st.indent_level, st.indent_level⟩
  | .call f args, st => by
    simp only [visitExpr, exprLines]
    rw [visitExpr_frame f, visitExprList_frame args]
    simp [indent, List.append_assoc]
  | .attribute v a, st => by
    simp only [visitExpr, exprLines]
    rw [visitExpr_frame v]
  | .binOp l op r, st => by
    simp only [visitExpr, exprLines]
    rw [visitExpr_frame l, visitExpr_frame r]
    simp [List.append_assoc]
  | .tuple es, st => by
    simp only [visitExpr, exprLines]
    rw [visitExprList_frame es]
  | .name id, st => by simp [visitExpr, exprLines]
  | .constantStr s, st => by simp [visitExpr, exprLines]
  | .constantInt n, st => by simp [visitExpr, exprLines]

/-- Frame property for visiting a list of child expressions. -/
theorem visitExprList_frame : ∀ (l : List PyExpr) (st : VState),
    visitExprList l st = ⟨st.docs ++ exprListLines l st.indent_level, st.indent_level⟩
  | [], st => by simp [visitExprList, exprListLines]
  | e :: rest, st => by
    simp only [visitExprList, exprListLines]
    rw [visitExpr_frame e, visitExprList_frame rest]
    simp [List.append_assoc]

end

mutual

/-- Frame property of the statement visitor: it appends exactly
`stmtLines s` (at the current indent level) to `docs` and restores the
indent level. -/
theorem visit_frame : ∀ (s : PyStmt) (st : VState),
    visit s st = ⟨st.docs ++ stmtLines s st.indent_level, st.indent_level⟩
  | .importS names, st => by simp [visit, visit_Import, stmtLines]
  | .importFrom m names, st => by simp [visit, visit_ImportFrom, stmtLines]
  | .classDef n ln b, st => by
    simp only [visit, stmtLines]
    rw [visit_body_elements_frame b]
    simp [indent, List.append_assoc]
  | .functionDef n ln a b, st => by
    simp only [visit, stmtLines]
    rw [visit_body_elements_frame b]
    simp [indent, List.append_assoc]
  | .assign t v, st => by simp [visit, visit_Assign, stmtLines, indent]
  | .forS tg it b o, st => by
    simp only [visit, stmtLines]
    rw [visit_body_elements_frame b]
    simp [indent, List.append_assoc]
  | .whileS t b o, st => by
    simp only [visit, stmtLines]
    rw [visitExpr_frame t, visit_body_elements_frame b, visit_body_elements_frame o]
    simp [List.append_assoc]
  | .ret v, st => by simp [visit, visit_Return, stmtLines, indent]
  | .exprStmt v, st => by
    simp only [visit, stmtLines]
    exact visitExpr_frame v st

/-- Frame property for visiting a list of statements. -/
theorem visit_body_elements_frame : ∀ (l : List PyStmt) (st : VState),
    visit_body_elements l st = ⟨st.docs ++ bodyLines l st.indent_level, st.indent_level⟩
  | [], st => by simp [visit_body_elements, bodyLines]
  | s :: rest, st => by
    simp only [visit_body_elements, bodyLines]
    rw [visit_frame s, visit_body_elements_frame rest]
    simp [List.append_assoc]

end

/-- Frame property of `visit_Module`: the title line, then the body's lines
at the current indent level; the indent level is restored. -/
theorem visit_Module_frame (m : PyModule) (st : VState) :
    visit_Module m st =
      ⟨st.docs ++ ("# 📘 Code Analysis and Auto Documentation\n" :: bodyLines m.body st.indent_level),
       st.indent_level⟩ := by
  simp only [visit_Module]
  rw [visit_body_elements_frame m.body]
  simp

/-- A full run produces exactly `moduleLines m` starting from the fresh
state. -/
theorem run_eq (m : PyModule) : run m = ⟨moduleLines m, 0⟩ := by
  simp [run, visit_Module_frame, init, moduleLines]

end CodeDocGenerator

/-- Number of two-space indentation units at the start of an emitted line. -/
def lineIndentUnits (s : String) : Nat :=
  (s.data.takeWhile (fun c => c = ' ')).length / 2

/-- `(s ++ t).data` is the concatenation of the character lists. -/
theorem strData_append (a b : String) : (a ++ b).data = a.data ++ b.data := by
  cases a
  cases b
  rfl

/-- The indentation string of level `i` is `2 * i` spaces. -/
theorem pyStrMul_two_data (i : Nat) : (pyStrMul "  " i).data = List.replicate (2 * i) ' ' := by
  induction i with
  | zero => rfl
  | succ k ih =>
    show (("  " : String) ++ pyStrMul "  " k).data = _
    rw [strData_append, ih]
    have h2 : 2 * (k + 1) = 2 * k + 1 + 1 := by omega
    rw [h2, List.replicate_succ, List.replicate_succ]
    rfl

/-- Leading-space count of a space block followed by a non-space character. -/
theorem takeWhile_space_replicate (n : Nat) (c : Char) (tail : List Char) (hc : ¬ c = ' ') :
    ((List.replicate n ' ' ++ (c :: tail)).takeWhile (fun x => x = ' ')).length = n := by
  induction n with
  | zero => simp [List.takeWhile_cons, hc]
  | succ k ih => simp [List.replicate_succ, List.takeWhile_cons, ih, hc]

/-- A line of the form `indent ++ (a ++ b)` with `a` starting with a
non-space character has indentation depth exactly the indent level. -/
theorem liu_pfx (i : Nat) (a b : String) (c : Char) (ha : a.data.head? = some c)
    (hc : ¬ c = ' ') : lineIndentUnits (pyStrMul "  " i ++ (a ++ b)) = i := by
  obtain ⟨t, hat⟩ : ∃ t, a.data = c :: t := by
    cases hd : a.data with
    | nil => simp [hd] at ha
    | cons x xs =>
      rw [hd] at ha
      simp at ha
      exact ⟨xs, by rw [ha]⟩
  unfold lineIndentUnits
  rw [strData_append, strData_append, pyStrMul_two_data, hat, List.cons_append,
      takeWhile_space_replicate (2 * i) c (t ++ b.data) hc]
  omega

/-- A line starting with a non-space character has indentation depth 0. -/
theorem liu_head0 (a b : String) (c : Char) (ha : a.data.head? = some c)
    (hc : ¬ c = ' ') : lineIndentUnits (a ++ b) = 0 := by
  obtain ⟨t, hat⟩ : ∃ t, a.data = c :: t := by
    cases hd : a.data with
    | nil => simp [hd] at ha
    | cons x xs =>
      rw [hd] at ha
      simp at ha
      exact ⟨xs, by rw [ha]⟩
  unfold lineIndentUnits
  rw [strData_append, hat]
  simp [List.cons_append, List.takeWhile_cons, hc]

mutual

/-- Spec-side (from the claim's words): the number of enclosing
class/function/loop bodies for each line emitted while traversing an
expression whose context already has `d` enclosing bodies.  Argument and
sub-expression positions add no bodies, so every line sits at `d`. -/
def nestingExpr : PyExpr → Nat → List Nat
  | .call f args, d => d :: (nestingExpr f d ++ nestingExprList args d)
  | .attribute v _, d => nestingExpr v d
  | .binOp l _ r, d => nestingExpr l d ++ nestingExpr r d
  | .tuple es, d => nestingExprList es d
  | .name _, _ => []
  | .constantStr _, _ => []
  | .constantInt _, _ => []

/-- Spec-side: nesting counts for a list of sub-expressions. -/
def nestingExprList : List PyExpr → Nat → List Nat
  | [], _ => []
  | e :: rest, d => nestingExpr e d ++ nestingExprList rest d

end

mutual

/-- Spec-side (from the claim's words): the number of enclosing
class/function/loop bodies for each line emitted while traversing a statement
in a context with `d` enclosing bodies.  Import lines and the module title
are pinned at 0, as the claim states.  The flag `w` chooses the reading of
"loop body": with `w = true` a `while` body also counts as an enclosing loop
body (the claim's literal words); with `w = false` only `for` bodies count. -/
def nestingStmt (w : Bool) : PyStmt → Nat → List Nat
  | .importS _, _ => [0]
  | .importFrom _ _, _ => [0]
  | .classDef _ _ b, d => d :: d :: nestingBody w b (d + 1)
  | .functionDef _ _ _ b, d => d :: d :: d :: nestingBody w b (d + 1)
  | .assign _ _, d => [d]
  | .forS _ _ b _, d => d :: nestingBody w b (d + 1)
  | .whileS t b o, d =>
    nestingExpr t d ++ (nestingBody w b (if w then d + 1 else d) ++ nestingBody w o d)
  | .ret _, d => [d]
  | .exprStmt v, d => nestingExpr v d

/-- Spec-side: nesting counts for a list of statements. -/
def nestingBody (w : Bool) : List PyStmt → Nat → List Nat
  | [], _ => []
  | s :: rest, d => nestingStmt w s d ++ nestingBody w rest d

end

/-- Spec-side: nesting counts for a whole module (title at 0, body at 0). -/
def nestingModule (w : Bool) (m : PyModule) : List Nat :=
  0 :: nestingBody w m.body 0

namespace CodeDocGenerator

mutual

/-- Each line emitted for an expression is indented by exactly its number of
enclosing bodies. -/
theorem exprLines_depth : ∀ (e : PyExpr) (i : Nat),
    (exprLines e i).map lineIndentUnits = nestingExpr e i
  | .call f args, i => by
    simp only [exprLines, nestingExpr, List.map_cons, List.map_append]
    rw [exprLines_depth f, exprListLines_depth args]
    rw [liu_pfx i "- 📞 Function call: `" _ '-' (by decide) (by decide)]
  | .attribute v a, i => by
    simp only [exprLines, nestingExpr]
    exact exprLines_depth v i
  | .binOp l op r, i => by
    simp only [exprLines, nestingExpr, List.map_append]
    rw [exprLines_depth l, exprLines_depth r]
  | .tuple es, i => by
    simp only [exprLines, nestingExpr]
    exact exprListLines_depth es i
  | .name id, i => by simp [exprLines, nestingExpr]
  | .constantStr s, i => by simp [exprLines, nestingExpr]
  | .constantInt n, i => by simp [exprLines, nestingExpr]

/-- Depth correspondence for expression lists. -/
theorem exprListLines_depth : ∀ (l : List PyExpr) (i : Nat),
    (exprListLines l i).map lineIndentUnits = nestingExprList l i
  | [], i => by simp [exprListLines, nestingExprList]
  | e :: rest, i => by
    simp only [exprListLines, nestingExprList, List.map_append]
    rw [exprLines_depth e, exprListLines_depth rest]

end

mutual

/-- Each line emitted for a statement is indented by exactly its number of
enclosing class/function/for bodies; import lines always sit at 0 and a
`while` body adds no indentation (`w = false` reading). -/
theorem stmtLines_depth : ∀ (s : PyStmt) (i : Nat),
    (stmtLines s i).map lineIndentUnits = nestingStmt false s i
  | .importS names, i => by
    simp only [stmtLines, nestingStmt, List.map_cons, List.map_nil]
    rw [liu_head0 "- 📦 Import: `" _ '-' (by decide) (by decide)]
  | .importFrom m names, i => by
    simp only [stmtLines, nestingStmt, List.map_cons, List.map_nil]
    rw [liu_head0 "- 📦 From `" _ '-' (by decide) (by decide)]
  | .classDef n ln b, i => by
    simp only [stmtLines, nestingStmt, List.map_cons]
    rw [bodyLines_depth b, liu_pfx i "## 🧱 Class: `" _ '#' (by decide) (by decide),
        liu_pfx i "- 📄 Docstring: " _ '-' (by decide) (by decide)]
  | .functionDef n ln a b, i => by
    simp only [stmtLines, nestingStmt, List.map_cons]
    rw [bodyLines_depth b, liu_pfx i "### 🔧 Function: `" _ '#' (by decide) (by decide),
        liu_pfx i "- 🧩 Arguments: " _ '-' (by decide) (by decide),
        liu_pfx i "- 📄 Docstring: " _ '-' (by decide) (by decide)]
  | .assign t v, i => by
    simp only [stmtLines, nestingStmt, List.map_cons, List.map_nil]
    rw [liu_pfx i "- 📝 Assignment: `" _ '-' (by decide) (by decide)]
  | .forS tg it b o, i => by
    simp only [stmtLines, nestingStmt, List.map_cons]
    rw [bodyLines_depth b, liu_pfx i "- 🔁 For loop: `for " _ '-' (by decide) (by decide)]
  | .whileS t b o, i => by
    simp only [stmtLines, nestingStmt, List.map_append, Bool.if_false_left]
    rw [exprLines_depth t, bodyLines_depth b, bodyLines_depth o]
    simp
  | .ret v, i => by
    simp only [stmtLines, nestingStmt, List.map_cons, List.map_nil]
    rw [liu_pfx i "- 🔙 Return statement: `" _ '-' (by decide) (by decide)]
  | .exprStmt v, i => by
    simp only [stmtLines, nestingStmt]
    exact exprLines_depth v i

/-- Depth correspondence for statement lists. -/
theorem bodyLines_depth : ∀ (l : List PyStmt) (i : Nat),
    (bodyLines l i).map lineIndentUnits = nestingBody false l i
  | [], i => by simp [bodyLines, nestingBody]
  | s :: rest, i => by
    simp only [bodyLines, nestingBody, List.map_append]
    rw [stmtLines_depth s, bodyLines_depth rest]

end

end CodeDocGenerator

/-- A string whose first character is not `#` is never the title line. -/
theorem headne_ne_title (a b : String) (c : Char) (ha : a.data.head? = some c)
    (hc : ¬ c = '#') :
    ¬ (a ++ b = "# 📘 Code Analysis and Auto Documentation\n") := by
  obtain ⟨t, hat⟩ : ∃ t, a.data = c :: t := by
    cases hd : a.data with
    | nil => simp [hd] at ha
    | cons x xs =>
      rw [hd] at ha
      simp at ha
      exact ⟨xs, by rw [ha]⟩
  intro h
  have hdata := congrArg String.data h
  rw [strData_append, hat, List.cons_append] at hdata
  have h1 := congrArg List.head? hdata
  have hT : ("# 📘 Code Analysis and Auto Documentation\n" : String).data.head? = some '#' := by
    decide
  rw [hT] at h1
  simp at h1
  exact hc h1

/-- An indented line whose content starts with a non-`#` character is never
the title line. -/
theorem pfx_ne_title (i : Nat) (a b : String) (c : Char) (ha : a.data.head? = some c)
    (hc : ¬ c = '#') :
    ¬ (pyStrMul "  " i ++ (a ++ b) = "# 📘 Code Analysis and Auto Documentation\n") := by
  obtain ⟨t, hat⟩ : ∃ t, a.data = c :: t := by
    cases hd : a.data with
    | nil => simp [hd] at ha
    | cons x xs =>
      rw [hd] at ha
      simp at ha
      exact ⟨xs, by rw [ha]⟩
  intro h
  have hdata := congrArg String.data h
  rw [strData_append, strData_append, pyStrMul_two_data, hat, List.cons_append] at hdata
  have hT : ("# 📘 Code Analysis and Auto Documentation\n" : String).data.head? = some '#' := by
    decide
  cases i with
  | zero =>
    simp only [Nat.mul_zero, List.replicate_zero, List.nil_append] at hdata
    have h1 := congrArg List.head? hdata
    rw [hT] at h1
    simp at h1
    exact hc h1
  | succ k =>
    have h2 : 2 * (k + 1) = 2 * k + 1 + 1 := by omega
    rw [h2, List.replicate_succ, List.cons_append] at hdata
    have h1 := congrArg List.head? hdata
    rw [hT] at h1
    simp at h1

/-- An indented line whose content starts with two `#` characters is never
the title line (whose second character is a blank). -/
theorem pfx2_ne_title (i : Nat) (a b : String) (ha : a.data.head? = some '#')
    (ha2 : a.data.tail.head? = some '#') :
    ¬ (pyStrMul "  " i ++ (a ++ b) = "# 📘 Code Analysis and Auto Documentation\n") := by
  obtain ⟨t, hat⟩ : ∃ t, a.data = '#' :: '#' :: t := by
    cases hd : a.data with
    | nil => simp [hd] at ha
    | cons x xs =>
      rw [hd] at ha ha2
      simp at ha
      cases xs with
      | nil => simp at ha2
      | cons y ys =>
        simp at ha2
        exact ⟨ys, by rw [ha, ha2]⟩
  intro h
  have hdata := congrArg String.data h
  rw [strData_append, strData_append, pyStrMul_two_data, hat, List.cons_append,
      List.cons_append] at hdata
  cases i with
  | zero =>
    simp only [Nat.mul_zero, List.replicate_zero, List.nil_append] at hdata
    have h1 := congrArg (fun l => List.head? (List.tail l)) hdata
    simp at h1
  | succ k =>
    have h2 : 2 * (k + 1) = 2 * k + 1 + 1 := by omega
    rw [h2, List.replicate_succ, List.cons_append] at hdata
    have h1 := congrArg List.head? hdata
    have hT : ("# 📘 Code Analysis and Auto Documentation\n" : String).data.head?
        = some '#' := by decide
    rw [hT] at h1
    simp at h1

namespace CodeDocGenerator

mutual

/-- No line emitted for an expression equals the module title line. -/
theorem exprLines_ne_title : ∀ (e : PyExpr) (i : Nat), ∀ l ∈ exprLines e i,
    ¬ (l = "# 📘 Code Analysis and Auto Documentation\n")
  | .call f args, i => by
    intro l hl
    simp only [exprLines, List.mem_cons, List.mem_append] at hl
    rcases hl with rfl | hl | hl
    · exact pfx_ne_title i "- 📞 Function call: `" _ '-' (by decide) (by decide)
    · exact exprLines_ne_title f i l hl
    · exact exprListLines_ne_title args i l hl
  | .attribute v a, i => by
    intro l hl
    simp only [exprLines] at hl
    exact exprLines_ne_title v i l hl
  | .binOp x op y, i => by
    intro l hl
    simp only [exprLines, List.mem_append] at hl
    rcases hl with hl | hl
    · exact exprLines_ne_title x i l hl
    · exact exprLines_ne_title y i l hl
  | .tuple es, i => by
    intro l hl
    simp only [exprLines] at hl
    exact exprListLines_ne_title es i l hl
  | .name id, i => by intro l hl; simp [exprLines] at hl
  | .constantStr s, i => by intro l hl; simp [exprLines] at hl
  | .constantInt n, i => by intro l hl; simp [exprLines] at hl

/-- No line emitted for a list of expressions equals the title line. -/
theorem exprListLines_ne_title : ∀ (es : List PyExpr) (i : Nat), ∀ l ∈ exprListLines es i,
    ¬ (l = "# 📘 Code Analysis and Auto Documentation\n")
  | [], i => by intro l hl; simp [exprListLines] at hl
  | e :: rest, i => by
    intro l hl
    simp only [exprListLines, List.mem_append] at hl
    rcases hl with hl | hl
    · exact exprLines_ne_title e i l hl
    · exact exprListLines_ne_title rest i l hl

end

mutual

/-- No line emitted for a statement equals the module title line. -/
theorem stmtLines_ne_title : ∀ (s : PyStmt) (i : Nat), ∀ l ∈ stmtLines s i,
    ¬ (l = "# 📘 Code Analysis and Auto Documentation\n")
  | .importS names, i => by
    intro l hl
    simp only [stmtLines, List.mem_singleton] at hl
    subst hl
    exact headne_ne_title "- 📦 Import: `" _ '-' (by decide) (by decide)
  | .importFrom m names, i => by
    intro l hl
    simp only [stmtLines, List.mem_singleton] at hl
    subst hl
    exact headne_ne_title "- 📦 From `" _ '-' (by decide) (by decide)
  | .classDef n ln b, i => by
    intro l hl
    simp only [stmtLines, List.mem_cons] at hl
    rcases hl with rfl | rfl | hl
    · exact pfx2_ne_title i "## 🧱 Class: `" _ (by decide) (by decide)
    · exact pfx_ne_title i "- 📄 Docstring: " _ '-' (by decide) (by decide)
    · exact bodyLines_ne_title b (i + 1) l hl
  | .functionDef n ln a b, i => by
    intro l hl
    simp only [stmtLines, List.mem_cons] at hl
    rcases hl with rfl | rfl | rfl | hl
    · exact pfx2_ne_title i "### 🔧 Function: `" _ (by decide) (by decide)
    · exact pfx_ne_title i "- 🧩 Arguments: " _ '-' (by decide) (by decide)
    · exact pfx_ne_title i "- 📄 Docstring: " _ '-' (by decide) (by decide)
    · exact bodyLines_ne_title b (i + 1) l hl
  | .assign t v, i => by
    intro l hl
    simp only [stmtLines, List.mem_singleton] at hl
    subst hl
    exact pfx_ne_title i "- 📝 Assignment: `" _ '-' (by decide) (by decide)
  | .forS tg it b o, i => by
    intro l hl
    simp only [stmtLines, List.mem_cons] at hl
    rcases hl with rfl | hl
    · exact pfx_ne_title i "- 🔁 For loop: `for " _ '-' (by decide) (by decide)
    · exact bodyLines_ne_title b (i + 1) l hl
  | .whileS t b o, i => by
    intro l hl
    simp only [stmtLines, List.mem_append] at hl
    rcases hl with hl | hl | hl
    · exact exprLines_ne_title t i l hl
    · exact bodyLines_ne_title b i l hl
    · exact bodyLines_ne_title o i l hl
  | .ret v, i => by
    intro l hl
    simp only [stmtLines, List.mem_singleton] at hl
    subst hl
    exact pfx_ne_title i "- 🔙 Return statement: `" _ '-' (by decide) (by decide)
  | .exprStmt v, i => by
    intro l hl
    simp only [stmtLines] at hl
    exact exprLines_ne_title v i l hl

/-- No line emitted for a list of statements equals the title line. -/
theorem bodyLines_ne_title : ∀ (ss : List PyStmt) (i : Nat), ∀ l ∈ bodyLines ss i,
    ¬ (l = "# 📘 Code Analysis and Auto Documentation\n")
  | [], i => by intro l hl; simp [bodyLines] at hl
  | s :: rest, i => by
    intro l hl
    simp only [bodyLines, List.mem_append] at hl
    rcases hl with hl | hl
    · exact stmtLines_ne_title s i l hl
    · exact bodyLines_ne_title rest i l hl

end

end CodeDocGenerator

/-- Case analysis of the docstring field: the placeholder when the body does
not start with a bare string literal or when the cleaned literal is empty,
otherwise the `inspect.cleandoc`-normalised literal text. -/
theorem pyOr_get_docstring (body : List PyStmt) (ph : String) :
    pyOr (get_docstring body) ph =
      (match body with
       | PyStmt.exprStmt (PyExpr.constantStr s) :: _ =>
         if cleandoc s = "" then ph else cleandoc s
       | _ => ph) := by
  cases body with
  | nil => rfl
  | cons hd tl =>
    cases hd <;> try rfl
    next v => cases v <;> rfl

open CodeDocGenerator in
/-- C1 (amended): for every module, the indentation depth (number of
two-space units) of each emitted line equals the number of enclosing
class/function/for-loop bodies at that point of the traversal (0 at top
level; a `while` body, which the visitor does not recognise, adds no
indentation), with import lines and the module title always at indent 0. -/
theorem claim_C1 : ∀ m : PyModule,
    ((CodeDocGenerator.run m).docs).map lineIndentUnits = nestingModule false m := by
  intro m
  rw [run_eq]
  show (CodeDocGenerator.moduleLines m).map lineIndentUnits = nestingModule false m
  simp only [CodeDocGenerator.moduleLines, nestingModule, List.map_cons]
  rw [bodyLines_depth]
  have h : lineIndentUnits "# 📘 Code Analysis and Auto Documentation\n" = 0 := by decide
  rw [h]

/-- C1, literal reading refuted: in `while x: y = 1` the assignment sits
inside one enclosing loop body, yet its line is emitted with indentation
depth 0, so depths do not equal enclosing class/function/loop body counts
when a `while` body counts as a loop body. -/
theorem claim_C1_cex :
    ¬ (((CodeDocGenerator.run
          ⟨[PyStmt.whileS (PyExpr.name "x")
              [PyStmt.assign [PyExpr.name "y"] (PyExpr.constantInt 1)] []]⟩).docs).map
            lineIndentUnits =
        nestingModule true
          ⟨[PyStmt.whileS (PyExpr.name "x")
              [PyStmt.assign [PyExpr.name "y"] (PyExpr.constantInt 1)] []]⟩) := by
  decide

/-- C7: for every module, the first emitted line is the fixed report title
and the title occurs exactly once in the output. -/
theorem claim_C7 : ∀ m : PyModule,
    ((CodeDocGenerator.run m).docs).head? = some "# 📘 Code Analysis and Auto Documentation\n" ∧
    ((CodeDocGenerator.run m).docs).count "# 📘 Code Analysis and Auto Documentation\n" = 1 := by
  intro m
  rw [CodeDocGenerator.run_eq]
  refine ⟨rfl, ?_⟩
  have h0 : List.count "# 📘 Code Analysis and Auto Documentation\n"
      (CodeDocGenerator.bodyLines m.body 0) = 0 := by
    rw [List.count_eq_zero]
    intro hmem
    exact CodeDocGenerator.bodyLines_ne_title m.body 0 _ hmem rfl
  show List.count _ (CodeDocGenerator.moduleLines m) = 1
  simp [CodeDocGenerator.moduleLines, List.count_cons, h0]

/-- C8: the indentation counter obeys stack discipline: after visiting any
statement, expression or module (children included), it equals its value
from before the visit. -/
theorem claim_C8 : ∀ (st : VState),
    (∀ s : PyStmt, (CodeDocGenerator.visit s st).indent_level = st.indent_level) ∧
    (∀ e : PyExpr, (CodeDocGenerator.visitExpr e st).indent_level = st.indent_level) ∧
    (∀ b : List PyStmt, (CodeDocGenerator.visit_body_elements b st).indent_level = st.indent_level) ∧
    (∀ m : PyModule, (CodeDocGenerator.visit_Module m st).indent_level = st.indent_level) := by
  intro st
  refine ⟨fun s => ?_, fun e => ?_, fun b => ?_, fun m => ?_⟩
  · rw [CodeDocGenerator.visit_frame]
  · rw [CodeDocGenerator.visitExpr_frame]
  · rw [CodeDocGenerator.visit_body_elements_frame]
  · rw [CodeDocGenerator.visit_Module_frame]

/-- C3: visiting an assignment, a return, a plain import or a from-import
appends exactly the statement's own single line, and a for loop appends
exactly its loop line followed by its body's lines — never any line for the
expression children (targets, values, iterables), so calls nested there
produce no call line. -/
theorem claim_C3 : ∀ (st : VState) (tg : List PyExpr) (v : PyExpr) (ov : Option PyExpr)
    (names : List PyAlias) (om : Option String) (t it : PyExpr) (b o : List PyStmt),
    CodeDocGenerator.visit (PyStmt.assign tg v) st =
      ⟨st.docs ++ [CodeDocGenerator.indent st ++ ("- 📝 Assignment: `" ++
        (pyJoin ", " (tg.map unparse) ++ (" = " ++ (unparse v ++ "`"))))], st.indent_level⟩ ∧
    CodeDocGenerator.visit (PyStmt.ret ov) st =
      ⟨st.docs ++ [CodeDocGenerator.indent st ++ ("- 🔙 Return statement: `" ++
        ((match ov with | some e => unparse e | none => "?") ++ "`"))], st.indent_level⟩ ∧
    CodeDocGenerator.visit (PyStmt.importS names) st =
      ⟨st.docs ++ ["- 📦 Import: `" ++ (pyJoin ", " (names.map PyAlias.name) ++ "`")],
       st.indent_level⟩ ∧
    CodeDocGenerator.visit (PyStmt.importFrom om names) st =
      ⟨st.docs ++ ["- 📦 From `" ++ (pyOr om "" ++ ("` import `" ++
        (pyJoin ", " (names.map PyAlias.name) ++ "`")))], st.indent_level⟩ ∧
    CodeDocGenerator.visit (PyStmt.forS t it b o) st =
      ⟨st.docs ++ ((CodeDocGenerator.indent st ++ ("- 🔁 For loop: `for " ++
          (unparse t ++ (" in " ++ (unparse it ++ "`"))))) ::
        CodeDocGenerator.bodyLines b (st.indent_level + 1)), st.indent_level⟩ := by
  intro st tg v ov names om t it b o
  refine ⟨?_, ?_, ?_, ?_, ?_⟩ <;>
    · rw [CodeDocGenerator.visit_frame]
      simp [CodeDocGenerator.stmtLines, CodeDocGenerator.indent]

/-- C9: a while statement emits no line of its own: visiting it visits its
children (test, body, orelse) at an unchanged indentation level, and its
body statements produce exactly the lines they would produce as the while
statement's siblings; only a for loop emits a loop line and visits its body
one indent level deeper. -/
theorem claim_C9 : ∀ (st : VState) (t : PyExpr) (b o : List PyStmt) (tg it : PyExpr),
    CodeDocGenerator.visit (PyStmt.whileS t b o) st =
      ⟨st.docs ++ (CodeDocGenerator.exprLines t st.indent_level ++
        (CodeDocGenerator.bodyLines b st.indent_level ++
         CodeDocGenerator.bodyLines o st.indent_level)), st.indent_level⟩ ∧
    CodeDocGenerator.visit_body_elements b st =
      ⟨st.docs ++ CodeDocGenerator.bodyLines b st.indent_level, st.indent_level⟩ ∧
    CodeDocGenerator.visit (PyStmt.forS tg it b o) st =
      ⟨st.docs ++ ((CodeDocGenerator.indent st ++ ("- 🔁 For loop: `for " ++
          (unparse tg ++ (" in " ++ (unparse it ++ "`"))))) ::
        CodeDocGenerator.bodyLines b (st.indent_level + 1)), st.indent_level⟩ := by
  intro st t b o tg it
  refine ⟨?_, ?_, ?_⟩
  · rw [CodeDocGenerator.visit_frame]
    simp [CodeDocGenerator.stmtLines]
  · rw [CodeDocGenerator.visit_body_elements_frame]
  · rw [CodeDocGenerator.visit_frame]
    simp [CodeDocGenerator.stmtLines, CodeDocGenerator.indent]

/-- C4 (amended): emitting a call's line does not stop descent: visiting an
expression statement holding a call appends the call's own line first, then
every line from the callee and the arguments (so a call nested in an
argument emits its own line after — though not necessarily immediately
after — its enclosing call's line), and all of these precede the lines of
any following sibling statement. -/
theorem claim_C4 : ∀ (st : VState) (f : PyExpr) (args : List PyExpr) (rest : List PyStmt),
    CodeDocGenerator.visit_body_elements (PyStmt.exprStmt (PyExpr.call f args) :: rest) st =
      ⟨st.docs ++
        (((CodeDocGenerator.indent st ++ ("- 📞 Function call: `" ++ (calleeName f ++ "`"))) ::
            (CodeDocGenerator.exprLines f st.indent_level ++
             CodeDocGenerator.exprListLines args st.indent_level)) ++
          CodeDocGenerator.bodyLines rest st.indent_level),
       st.indent_level⟩ := by
  intro st f args rest
  rw [CodeDocGenerator.visit_body_elements_frame]
  simp [CodeDocGenerator.bodyLines, CodeDocGenerator.stmtLines, CodeDocGenerator.exprLines,
    CodeDocGenerator.indent]

/-- C4, "immediately after" refuted: in `f(g(), h())` the call `h` is nested
as an argument of the reached call `f`, but its line appears two positions
after `f`'s line (the line of the sibling argument `g` lies between). -/
theorem claim_C4_cex :
    (CodeDocGenerator.run
        ⟨[PyStmt.exprStmt (PyExpr.call (PyExpr.name "f")
            [PyExpr.call (PyExpr.name "g") [], PyExpr.call (PyExpr.name "h") []])]⟩).docs =
      ["# 📘 Code Analysis and Auto Documentation\n",
       "- 📞 Function call: `f`",
       "- 📞 Function call: `g`",
       "- 📞 Function call: `h`"] ∧
    ¬ ((CodeDocGenerator.run
        ⟨[PyStmt.exprStmt (PyExpr.call (PyExpr.name "f")
            [PyExpr.call (PyExpr.name "g") [], PyExpr.call (PyExpr.name "h") []])]⟩).docs.get? 2 =
      some "- 📞 Function call: `h`") := by
  decide

/-- C2 (amended): the emitted docstring field of a class or function
definition is the fixed placeholder when the body does not start with a bare
string literal, and also when that literal cleans (via `inspect.cleandoc`)
to the empty string; otherwise it is the `inspect.cleandoc`-normalised text
of the literal, which may differ from the literal's text verbatim. -/
theorem claim_C2 : ∀ (st : VState) (n : String) (ln : Nat) (a : List String)
    (body : List PyStmt),
    CodeDocGenerator.visit (PyStmt.classDef n ln body) st =
      ⟨st.docs ++
        ((CodeDocGenerator.indent st ++ ("## 🧱 Class: `" ++ (n ++ ("` (Line " ++ (toString ln ++ ")"))))) ::
         (CodeDocGenerator.indent st ++ ("- 📄 Docstring: " ++
            (match body with
             | PyStmt.exprStmt (PyExpr.constantStr s) :: _ =>
               if cleandoc s = "" then "No class docstring found." else cleandoc s
             | _ => "No class docstring found."))) ::
         CodeDocGenerator.bodyLines body (st.indent_level + 1)), st.indent_level⟩ ∧
    CodeDocGenerator.visit (PyStmt.functionDef n ln a body) st =
      ⟨st.docs ++
        ((CodeDocGenerator.indent st ++ ("### 🔧 Function: `" ++ (n ++ ("` (Line " ++ (toString ln ++ ")"))))) ::
         (CodeDocGenerator.indent st ++ ("- 🧩 Arguments: " ++ (if a = [] then "None" else pyJoin ", " a))) ::
         (CodeDocGenerator.indent st ++ ("- 📄 Docstring: " ++
            (match body with
             | PyStmt.exprStmt (PyExpr.constantStr s) :: _ =>
               if cleandoc s = "" then "No function docstring found." else cleandoc s
             | _ => "No function docstring found."))) ::
         CodeDocGenerator.bodyLines body (st.indent_level + 1)), st.indent_level⟩ := by
  intro st n ln a body
  constructor
  · rw [CodeDocGenerator.visit_frame]
    simp [CodeDocGenerator.stmtLines, CodeDocGenerator.indent, pyOr_get_docstring]
  · rw [CodeDocGenerator.visit_frame]
    simp [CodeDocGenerator.stmtLines, CodeDocGenerator.indent, pyOr_get_docstring]

/-- C2 refuted as stated: a class whose body starts with the bare string
literal `""` gets the placeholder instead of that literal's (empty) text,
and a function whose docstring literal is `"hdr\n    tail"` gets the
cleaned text `"hdr\ntail"`, not the literal's text exactly. -/
theorem claim_C2_cex :
    (CodeDocGenerator.run ⟨[PyStmt.classDef "C" 1 [PyStmt.exprStmt (PyExpr.constantStr "")]]⟩).docs =
      ["# 📘 Code Analysis and Auto Documentation\n",
       "## 🧱 Class: `C` (Line 1)",
       "- 📄 Docstring: No class docstring found."] ∧
    ¬ ("- 📄 Docstring: No class docstring found." = "- 📄 Docstring: ") ∧
    (CodeDocGenerator.run
        ⟨[PyStmt.functionDef "f" 1 []
            [PyStmt.exprStmt (PyExpr.constantStr "hdr\n    tail")]]⟩).docs =
      ["# 📘 Code Analysis and Auto Documentation\n",
       "### 🔧 Function: `f` (Line 1)",
       "- 🧩 Arguments: None",
       "- 📄 Docstring: hdr\ntail"] ∧
    ¬ ("- 📄 Docstring: hdr\ntail" = "- 📄 Docstring: hdr\n    tail") := by
  decide

/-- C5: for every input whose read/decode fails or whose parse fails, the
analysis returns the pair of the error message `"❌ Error: <description>"`
and the empty string (the embedding is total, so no exception escapes). -/
theorem claim_C5 : ∀ (parse : String → Except String PyModule)
    (file : Option (Except String String)) (msg : String),
    (file = some (Except.error msg) ∨
     (∃ src, file = some (Except.ok src) ∧ parse src = Except.error msg)) →
    analyze_code parse file = ("❌ Error: " ++ msg, "") := by
  intro parse file msg h
  rcases h with rfl | ⟨src, rfl, hp⟩
  · rfl
  · simp [analyze_code, hp]

/-- Witness for C5: a concrete failing decode and the resulting error pair. -/
theorem claim_C5_witness :
    analyze_code (fun _ => Except.error "invalid syntax") (some (Except.ok "def f(:")) =
      ("❌ Error: invalid syntax", "") :=
  claim_C5 (fun _ => Except.error "invalid syntax") (some (Except.ok "def f(:"))
    "invalid syntax" (Or.inr ⟨"def f(:", rfl, rfl⟩)

/-- C6: the analysis echoes the source: on the success path the second
component of the result equals the decoded input text; on the no-input path
and on every read/decode or parse failure it is the empty string. -/
theorem claim_C6 : ∀ (parse : String → Except String PyModule) (src e : String)
    (tree : PyModule),
    (parse src = Except.ok tree → (analyze_code parse (some (Except.ok src))).2 = src) ∧
    (analyze_code parse none).2 = "" ∧
    (analyze_code parse (some (Except.error e))).2 = "" ∧
    (parse src = Except.error e → (analyze_code parse (some (Except.ok src))).2 = "") := by
  intro parse src e tree
  refine ⟨fun h => ?_, rfl, rfl, fun h => ?_⟩
  · simp [analyze_code, h]
  · simp [analyze_code, h]

/-- Witness for C6: a concrete successful parse echoes the source text. -/
theorem claim_C6_witness :
    (analyze_code (fun _ => Except.ok (⟨[]⟩ : PyModule)) (some (Except.ok "x = 1"))).2 =
      "x = 1" :=
  (claim_C6 (fun _ => Except.ok (⟨[]⟩ : PyModule)) "x = 1" "" ⟨[]⟩).1 rfl

/-- C10: the analysis is deterministic: equal inputs (same parse function
outcome, same file contents) yield identical result pairs, and every run
starts from the fresh visitor state with an empty line list and indentation
level 0. -/
theorem claim_C10 : ∀ (parse : String → Except String PyModule)
    (f1 f2 : Option (Except String String)),
    f1 = f2 →
    analyze_code parse f1 = analyze_code parse f2 ∧
    ∀ m : PyModule,
      CodeDocGenerator.run m = CodeDocGenerator.visit_Module m ⟨[], 0⟩ := by
  intro parse f1 f2 h
  exact ⟨by rw [h], fun m => rfl⟩

/-- Witness for C10: two calls on the same concrete input coincide. -/
theorem claim_C10_witness :
    analyze_code (fun _ => Except.error "e") (some (Except.ok "x = 1")) =
      analyze_code (fun _ => Except.error "e") (some (Except.ok "x = 1")) :=
  (claim_C10 (fun _ => Except.error "e") (some (Except.ok "x = 1"))
    (some (Except.ok "x = 1")) rfl).1
